import Mathlib

/-!
Shallow embedding of the custom_scheduler job-scheduling engine.

Sources embedded here:
  - interfaces/Job (JobStatus, JobPriority, Job, JobOptions, JobResult)
  - services/JobRepository (createJob, getJobById, updateJobStatus,
    incrementJobAttempts, getPendingJobs, deleteJob)
  - services/RecurringJobRepository (createRecurringJob)
  - Scheduler (scheduleJob, scheduleRecurringJob, cancelJob, retryJob,
    processNextJobs, processJob, getNextRunTime)

Modelling conventions:
  - Instants are Nat milliseconds since the Unix epoch.  JS Date calendar
    fields are modelled at a fixed UTC offset of zero with whole-minute
    granularity, so zeroing seconds and milliseconds is t - t % 60000 and
    midnight means t % 86400000 = 0.  Real-time and timezone transitions are
    outside the model.
  - The MongoDB document store is a List Job; findByIdAndUpdate is a keyed
    map over the list; the automatic bookkeeping timestamps createdAt and
    updatedAt (managed by the mongoose timestamps option, never read by the
    engine) are omitted from the record.
  - MongoDB sorts the string-valued priority enum by bytewise string
    comparison, reproduced here by a lexicographic comparison on the stored
    enum strings.
  - Asynchronous handler execution is modelled two ways: processJob resolves
    the handler race synchronously (used for whole-tick scenarios), and the
    dispatch-phase model stops at the point where the handler is still in
    flight (used for admission-control properties).
-/

namespace CustomScheduler

/-- Job lifecycle states, from the JobStatus enum. -/
inductive JobStatus where
  | pending
  | running
  | completed
  | failed
  deriving DecidableEq, Repr, BEq

/-- Stored string value of each status, as in the JobStatus enum. -/
def JobStatus.str : JobStatus → String
  | .pending => "pending"
  | .running => "running"
  | .completed => "completed"
  | .failed => "failed"

/-- Job priorities, from the JobPriority enum. -/
inductive JobPriority where
  | low
  | normal
  | high
  deriving DecidableEq, Repr, BEq

/-- Stored string value of each priority, as in the JobPriority enum;
these strings are what MongoDB actually compares when sorting. -/
def JobPriority.str : JobPriority → String
  | .low => "low"
  | .normal => "normal"
  | .high => "high"

/-- A persisted job record (interfaces/Job), with the opaque data payload
kept as a string and the auto-managed createdAt and updatedAt bookkeeping
timestamps omitted (the engine never reads them). -/
structure Job where
  id : String
  name : String
  data : String
  status : JobStatus
  scheduledAt : Nat
  executedAt : Option Nat
  completedAt : Option Nat
  errorMessage : Option String
  attempts : Nat
  userId : Option String
  priority : JobPriority
  maxRetries : Nat
  retryDelay : Nat
  timeout : Nat
  deriving DecidableEq, Repr

/-- Per-job options (interfaces/Job JobOptions); absent fields are none. -/
structure JobOptions where
  priority : Option JobPriority := none
  maxRetries : Option Nat := none
  retryDelay : Option Nat := none
  timeout : Option Nat := none
  deriving DecidableEq, Repr

/-- JS defaulting idiom v || d on a possibly-absent number: undefined and 0
are both falsy, so both select the default. -/
def jsOrNat (v : Option Nat) (d : Nat) : Nat :=
  match v with
  | none => d
  | some n => if n = 0 then d else n

/-- JS defaulting idiom v || d on a possibly-absent priority: the enum
strings are nonempty, hence truthy, so only absence selects the default. -/
def jsOrPriority (v : Option JobPriority) (d : JobPriority) : JobPriority :=
  v.getD d

/-- JobRepository.createJob: builds a fresh Pending job with zero attempts,
defaulting priority, maxRetries, retryDelay and timeout with the JS
falsy-or idiom.  The fresh document id is passed in explicitly. -/
def createJob (id name data : String) (scheduledAt : Nat)
    (options : JobOptions) (userId : Option String) : Job :=
  { id := id
    name := name
    data := data
    status := .pending
    scheduledAt := scheduledAt
    executedAt := none
    completedAt := none
    errorMessage := none
    attempts := 0
    userId := userId
    priority := jsOrPriority options.priority .normal
    maxRetries := jsOrNat options.maxRetries 3
    retryDelay := jsOrNat options.retryDelay 60000
    timeout := jsOrNat options.timeout 30000 }

/-- A persisted recurring-schedule record (models/RecurringJobModel). -/
structure RecurringJob where
  id : String
  name : String
  data : String
  cronExpression : String
  userId : Option String
  priority : JobPriority
  maxRetries : Nat
  retryDelay : Nat
  timeout : Nat
  lastExecutedAt : Option Nat
  isActive : Bool
  deriving DecidableEq, Repr

/-- RecurringJobRepository.createRecurringJob: same JS falsy-or defaulting
as createJob, active from creation, never yet executed. -/
def createRecurringJob (id name data cronExpression : String)
    (options : JobOptions) (userId : Option String) : RecurringJob :=
  { id := id
    name := name
    data := data
    cronExpression := cronExpression
    userId := userId
    priority := jsOrPriority options.priority .normal
    maxRetries := jsOrNat options.maxRetries 3
    retryDelay := jsOrNat options.retryDelay 60000
    timeout := jsOrNat options.timeout 30000
    lastExecutedAt := none
    isActive := true }

/-- The update document built by JobRepository.updateJobStatus, applied to a
job record: always sets status; stamps executedAt when the target status is
Running, completedAt when Completed, and errorMessage when Failed and a
truthy (nonempty) message was supplied.  No other field is written. -/
def applyStatusUpdate (j : Job) (status : JobStatus)
    (errorMessage : Option String) (now : Nat) : Job :=
  match status with
  | .running => { j with status := .running, executedAt := some now }
  | .completed => { j with status := .completed, completedAt := some now }
  | .failed =>
      match errorMessage with
      | some m =>
          if m = "" then { j with status := .failed }
          else { j with status := .failed, errorMessage := some m }
      | none => { j with status := .failed }
  | .pending => { j with status := .pending }

/-- Keyed document update: findByIdAndUpdate touches exactly the documents
whose id matches (unique in a well-formed store). -/
def updateById (store : List Job) (id : String) (f : Job → Job) : List Job :=
  store.map fun j => if j.id == id then f j else j

/-- JobRepository.updateJobStatus as a store transformation. -/
def updateJobStatus (store : List Job) (id : String) (status : JobStatus)
    (errorMessage : Option String) (now : Nat) : List Job :=
  updateById store id fun j => applyStatusUpdate j status errorMessage now

/-- JobRepository.incrementJobAttempts: the $inc update on attempts. -/
def incrementJobAttempts (store : List Job) (id : String) : List Job :=
  updateById store id fun j => { j with attempts := j.attempts + 1 }

/-- JobRepository.getJobById: findById. -/
def getJobById (store : List Job) (id : String) : Option Job :=
  store.find? fun j => j.id == id

/-- JobRepository.deleteJob: deleteOne by id; reports whether deletedCount
was exactly one (deleteOne removes at most the first matching document). -/
def deleteJob (store : List Job) (id : String) : List Job × Bool :=
  (store.eraseP (fun j => j.id == id), store.any (fun j => j.id == id))

/-- Bytewise lexicographic string comparison on the underlying characters,
the order MongoDB uses for string fields without a collation. -/
def charsLt : List Char → List Char → Bool
  | [], [] => false
  | [], _ :: _ => true
  | _ :: _, [] => false
  | a :: as, b :: bs =>
      if a < b then true else if b < a then false else charsLt as bs

/-- String form of the bytewise comparison. -/
def strLt (a b : String) : Bool :=
  charsLt a.toList b.toList

/-- Sort key of the getPendingJobs query, sort priority -1 scheduledAt 1:
job a precedes job b when the stored priority string of a is greater, or the
priority strings are equal and a is due no later. -/
def jobLeB (a b : Job) : Bool :=
  if strLt b.priority.str a.priority.str then true
  else if strLt a.priority.str b.priority.str then false
  else decide (a.scheduledAt ≤ b.scheduledAt)

/-- Insertion step of the sort used to model the query ordering. -/
def insertJob (le : Job → Job → Bool) (j : Job) : List Job → List Job
  | [] => [j]
  | k :: ks => if le j k then j :: k :: ks else k :: insertJob le j ks

/-- Insertion sort used to model the query ordering. -/
def sortJobs (le : Job → Job → Bool) : List Job → List Job
  | [] => []
  | j :: js => insertJob le j (sortJobs le js)

/-- Due-job filter of getPendingJobs: status Pending and scheduledAt at or
before now. -/
def isDueB (now : Nat) (j : Job) : Bool :=
  j.status == JobStatus.pending && decide (j.scheduledAt ≤ now)

/-- JobRepository.getPendingJobs: filter the due Pending jobs, order them by
the MongoDB sort on the stored priority string descending then scheduledAt
ascending, and take at most limit of them. -/
def getPendingJobs (store : List Job) (now : Nat) (limit : Nat) : List Job :=
  (sortJobs jobLeB (store.filter (isDueB now))).take limit

/-- Scheduler.cancelJob: look the job up; absent or non-Pending yields false
with the store untouched; a Pending job is deleted and the deleteJob outcome
is returned. -/
def cancelJob (store : List Job) (id : String) : Bool × List Job :=
  match getJobById store id with
  | none => (false, store)
  | some j =>
      if j.status ≠ JobStatus.pending then (false, store)
      else
        let r := deleteJob store id
        (r.2, r.1)

/-- Scheduler.retryJob: absent id yields ok none; a job whose status is not
Failed raises the state error; a Failed job is written back to Pending via
updateJobStatus and the updated record is returned. -/
def retryJob (store : List Job) (id : String) (now : Nat) :
    Except String (Option Job × List Job) :=
  match getJobById store id with
  | none => .ok (none, store)
  | some j =>
      if j.status ≠ JobStatus.failed then
        .error ("Cannot retry job with status: " ++ j.status.str)
      else
        let store1 := updateJobStatus store id JobStatus.pending none now
        .ok (getJobById store1 id, store1)

/-- Scheduler.scheduleJob: guarded by the readiness check, then delegates to
JobRepository.createJob with the caller-supplied options. -/
def scheduleJob (ready : Bool) (id name data : String) (scheduledAt : Nat)
    (options : JobOptions) (userId : Option String) : Except String Job :=
  if ready then .ok (createJob id name data scheduledAt options userId)
  else .error "Scheduler not initialized. Call initialize() first."

/-- Zero the seconds and milliseconds fields of an instant (setSeconds(0)
then setMilliseconds(0)); timezone offsets are whole minutes, so this is
flooring to the minute. -/
def floorMin (t : Nat) : Nat := t - t % 60000

/-- Common prelude of Scheduler.getNextRunTime: copy the from instant, add
one minute to look forward, zero seconds and milliseconds. -/
def cronBase (fromT : Nat) : Nat := floorMin (fromT + 60000)

/-- Hourly branch body of getNextRunTime: zero the minutes of the advanced
instant; when the minute field of the original from instant is zero, move
one further hour ahead. -/
def hourlyNext (fromT : Nat) : Nat :=
  let h := cronBase fromT - cronBase fromT % 3600000
  if fromT % 3600000 < 60000 then h + 3600000 else h

/-- Daily branch body of getNextRunTime: zero minutes and hours of the
advanced instant, then move one day forward. -/
def dailyNext (fromT : Nat) : Nat :=
  cronBase fromT - cronBase fromT % 86400000 + 86400000

/-- Weekly branch body of getNextRunTime: zero minutes and hours, then add
7 - dayOfWeek days; the epoch day 1970-01-01 was a Thursday, day four. -/
def weeklyNext (fromT : Nat) : Nat :=
  let d := cronBase fromT - cronBase fromT % 86400000
  d + (7 - (d / 86400000 + 4) % 7) * 86400000

/-- Gregorian civil date of a day count since 1970-01-01 (standard era
decomposition), modelling the JS Date calendar fields at UTC. -/
def civilFromDays (z0 : Nat) : Nat × Nat × Nat :=
  let z := z0 + 719468
  let era := z / 146097
  let doe := z % 146097
  let yoe := (doe - doe / 1460 + doe / 36524 - doe / 146096) / 365
  let y := yoe + era * 400
  let doy := doe - (365 * yoe + yoe / 4 - yoe / 100)
  let mp := (5 * doy + 2) / 153
  let d := doy - (153 * mp + 2) / 5 + 1
  let m := if mp < 10 then mp + 3 else mp - 9
  (if m ≤ 2 then y + 1 else y, m, d)

/-- Day count since 1970-01-01 of a Gregorian civil date (standard era
composition). -/
def daysFromCivil (y m d : Nat) : Nat :=
  let y1 := if m ≤ 2 then y - 1 else y
  let era := y1 / 400
  let yoe := y1 % 400
  let mp := if 2 < m then m - 3 else m + 9
  let doy := (153 * mp + 2) / 5 + d - 1
  let doe := yoe * 365 + yoe / 4 - yoe / 100 + doy
  era * 146097 + doe - 719468

/-- Monthly branch body of getNextRunTime: zero minutes and hours, set the
day of month to the first, then advance the month by one with year
rollover. -/
def monthlyNext (fromT : Nat) : Nat :=
  let day := (cronBase fromT - cronBase fromT % 86400000) / 86400000
  let ymd := civilFromDays day
  let y := ymd.1
  let m := ymd.2.1
  (if m = 12 then daysFromCivil (y + 1) 1 1 else daysFromCivil y (m + 1) 1)
    * 86400000

/-- Fallback branch body of getNextRunTime: five further minutes past the
already-advanced minute-floored instant. -/
def fallbackNext (fromT : Nat) : Nat := cronBase fromT + 300000

/-- Split a character list on the space character, JS String.split with a
single-character separator: consecutive separators produce empty fields. -/
def splitChars : List Char → List (List Char)
  | [] => [[]]
  | c :: cs =>
      let r := splitChars cs
      if c = ' ' then [] :: r
      else
        match r with
        | [] => [[c]]
        | f :: fs => (c :: f) :: fs

/-- The split of the cron expression on spaces, cronExpression.split of a
space in the source. -/
def cronParts (cronExpression : String) : List String :=
  (splitChars cronExpression.toList).map List.asString

/-- Field read parts i of the split expression; an out-of-range read gives
the empty string, which like the JS undefined matches no pattern literal. -/
def cronPart (cronExpression : String) (i : Nat) : String :=
  (cronParts cronExpression).getD i ""

/-- Scheduler.getNextRunTime: inspect the split fields exactly as the
source if-chain does and dispatch to the matching branch body. -/
def getNextRunTime (cronExpression : String) (fromT : Nat) : Nat :=
  if cronExpression = "* * * * *" then cronBase fromT
  else if cronPart cronExpression 0 = "0" ∧
      cronPart cronExpression 1 = "*" then hourlyNext fromT
  else if cronPart cronExpression 0 = "0" ∧
      cronPart cronExpression 1 = "0" ∧
      cronPart cronExpression 2 = "*" then dailyNext fromT
  else if cronPart cronExpression 0 = "0" ∧
      cronPart cronExpression 1 = "0" ∧
      cronPart cronExpression 4 = "0" then weeklyNext fromT
  else if cronPart cronExpression 0 = "0" ∧
      cronPart cronExpression 1 = "0" ∧
      cronPart cronExpression 2 = "1" then monthlyNext fromT
  else fallbackNext fromT

/-- Scheduler.scheduleRecurringJob: readiness check, then the external
cron.validate check (modelled as the boolean valid), then creation of the
schedule record and the eager first occurrence at getNextRunTime of now. -/
def scheduleRecurringJob (ready valid : Bool) (rid jid name data
    cronExpression : String) (options : JobOptions) (userId : Option String)
    (now : Nat) : Except String (RecurringJob × Job) :=
  if ready = false then
    .error "Scheduler not initialized. Call initialize() first."
  else if valid = false then
    .error ("Invalid cron expression: " ++ cronExpression)
  else
    .ok (createRecurringJob rid name data cronExpression options userId,
      createJob jid name data (getNextRunTime cronExpression now) options
        userId)

/-- Resolution of one handler invocation raced against its timeout: the
handler resolves with success, resolves with a reported failure carrying an
optional error, or the race rejects (handler exception or the timeout
rejection), which the catch clause sees as a thrown message. -/
inductive Outcome where
  | success
  | resultFailure (err : Option String)
  | thrown (msg : String)
  deriving DecidableEq, Repr

/-- The handler registry: jobHandlers.get by job name; a registered handler
is modelled by the outcome it produces on a given job snapshot. -/
def Handlers := String → Option (Job → Outcome)

/-- Process-local scheduler state: the persisted store and the in-memory
active-job id set (a JS Set, modelled as a duplicate-free list built by
addActive). -/
structure SchedState where
  store : List Job
  active : List String
  deriving DecidableEq, Repr

/-- JS Set.add on the active-job set. -/
def addActive (a : List String) (id : String) : List String :=
  if id ∈ a then a else id :: a

/-- JS Set.delete on the active-job set. -/
def removeActive (a : List String) (id : String) : List String :=
  a.filter (· ≠ id)

/-- Scheduler.processJob with the handler race resolved synchronously: skip
ids already active; a missing handler marks the job Failed with the
descriptive message and returns before the active-set add or the attempt
increment; otherwise mark Running, add to the active set, increment
attempts, resolve the race, interpret the outcome (on failure the job is
reread and written back to Pending when its attempts are still strictly
below maxRetries; the retry instant now plus retryDelay is computed in both
failure branches but never written), and finally remove the id from the
active set.  The store effect of the handler run, from the Running write to
the outcome interpretation, is runHandler; processJob wraps it with the
active-set bookkeeping. -/
def runHandler (h : Job → Outcome) (now : Nat) (store : List Job)
    (job : Job) : List Job :=
  let store1 := updateJobStatus store job.id JobStatus.running none now
  let store2 := incrementJobAttempts store1 job.id
  match h job with
  | .success =>
      updateJobStatus store2 job.id JobStatus.completed none now
  | .resultFailure err =>
      let errorMessage :=
        match err with
        | some m => m
        | none => "Job failed without error details"
      let storeF := updateJobStatus store2 job.id JobStatus.failed
        (some errorMessage) now
      match getJobById storeF job.id with
      | some u =>
          if u.attempts < u.maxRetries then
            let _retryTime := now + u.retryDelay
            updateJobStatus
              (updateJobStatus storeF u.id JobStatus.pending none now)
              u.id JobStatus.pending none now
          else storeF
      | none => storeF
  | .thrown msg =>
      let storeF := updateJobStatus store2 job.id JobStatus.failed
        (some msg) now
      match getJobById storeF job.id with
      | some u =>
          if u.attempts < u.maxRetries then
            let _retryTime := now + u.retryDelay
            updateJobStatus storeF u.id JobStatus.pending none now
          else storeF
      | none => storeF

/-- Scheduler.processJob, assembling the active-set skip, the
missing-handler failure path and the handler run of runHandler. -/
def processJob (handlers : Handlers) (now : Nat) (st : SchedState)
    (job : Job) : SchedState :=
  if job.id ∈ st.active then st
  else
    match handlers job.name with
    | none =>
        { st with store := (updateJobStatus st.store job.id JobStatus.failed
            (some ("No handler registered for job type: " ++ job.name)) now) }
    | some h =>
        { store := runHandler h now st.store job,
          active := removeActive (addActive st.active job.id) job.id }

/-- Dispatch-phase prefix of Scheduler.processJob, covering exactly the
statements that run before the first suspension on the handler race: the
active-set skip, the missing-handler failure path, and otherwise the Running
write, the active-set add and the attempt increment.  The id of each job
whose handler invocation was initiated is appended to the started list. -/
def dispatchStep (handlers : Handlers) (now : Nat)
    (acc : SchedState × List String) (job : Job) : SchedState × List String :=
  if job.id ∈ acc.1.active then acc
  else
    match handlers job.name with
    | none =>
        let msg := "No handler registered for job type: " ++ job.name
        let s := updateJobStatus acc.1.store job.id JobStatus.failed
          (some msg) now
        ({ acc.1 with store := s }, acc.2)
    | some _ =>
        let s := updateJobStatus acc.1.store job.id JobStatus.running none now
        let s2 := incrementJobAttempts s job.id
        ({ store := s2, active := addActive acc.1.active job.id },
          acc.2 ++ [job.id])

/-- Scheduler.processNextJobs at the instant the tick returns, with every
dispatched handler still in flight: skip outright when the active set has
reached maxConcurrentJobs, otherwise fetch up to availableSlots due jobs and
run the dispatch prefix of processJob on each; also returns the ids whose
dispatch was initiated this tick. -/
def processNextJobs (handlers : Handlers) (now maxConcurrentJobs : Nat)
    (st : SchedState) : SchedState × List String :=
  if maxConcurrentJobs ≤ st.active.length then (st, [])
  else
    let availableSlots := maxConcurrentJobs - st.active.length
    (getPendingJobs st.store now availableSlots).foldl
      (dispatchStep handlers now) (st, [])

/-- One tick of the dispatch loop in which every dispatched handler resolves
before the next tick (no recurring schedules present): the concurrency gate
and batch fetch of processNextJobs followed by the fully resolved processJob
on each fetched job. -/
def processTick (handlers : Handlers) (now maxConcurrentJobs : Nat)
    (st : SchedState) : SchedState :=
  if maxConcurrentJobs ≤ st.active.length then st
  else
    (getPendingJobs st.store now (maxConcurrentJobs - st.active.length)).foldl
      (processJob handlers now) st

/-- Fixture: a due Pending job of Low priority, due earlier than the High
one. -/
def jobLowEarlier : Job :=
  { id := "low1", name := "n", data := "", status := .pending,
    scheduledAt := 5, executedAt := none, completedAt := none,
    errorMessage := none, attempts := 0, userId := none, priority := .low,
    maxRetries := 3, retryDelay := 60000, timeout := 30000 }

/-- Fixture: a due Pending job of High priority, due later than the Low
one. -/
def jobHighLater : Job :=
  { jobLowEarlier with id := "high1", scheduledAt := 10, priority := .high }

/-- Fixture: a Pending job due at instant zero whose handler always throws,
with maxRetries one. -/
def boomJob : Job :=
  { jobLowEarlier with
    id := "boom1", name := "boom", priority := .normal,
    maxRetries := 1, scheduledAt := 0 }

/-- Fixture: the same always-throwing job with the default retry budget of
three. -/
def boomJob3 : Job := { boomJob with id := "b3", maxRetries := 3 }

/-- Fixture: a registry holding one handler, for the name boom, that always
throws. -/
def boomHandlers : Handlers :=
  fun n =>
    if n = "boom" then some (fun _ => Outcome.thrown "boom error") else none

/-- Fixture: an empty handler registry. -/
def emptyHandlers : Handlers := fun _ => none

/-- Fixture: fresh scheduler state holding only boomJob. -/
def stBoom0 : SchedState := { store := [boomJob], active := [] }

/-- Fixture: stBoom0 after one fully resolved tick at instant 1000. -/
def stBoom1 : SchedState := processTick boomHandlers 1000 10 stBoom0

/-- Fixture: stBoom1 after a second fully resolved tick at instant 2000. -/
def stBoom2 : SchedState := processTick boomHandlers 2000 10 stBoom1

/-- Fixture: fresh scheduler state holding only boomJob3. -/
def stRetry0 : SchedState := { store := [boomJob3], active := [] }

/-- Fixture: a job that has already failed. -/
def failedJob : Job := { jobLowEarlier with id := "f1", status := .failed }

/-!
Helper lemmas about the embedded repository operations.
-/

/-- The update document of updateJobStatus never touches the identity,
payload, scheduling or policy fields of a job, whatever the target
status. -/
theorem applyStatusUpdate_frame (j : Job) (s : JobStatus) (e : Option String)
    (n : Nat) :
    (applyStatusUpdate j s e n).id = j.id ∧
    (applyStatusUpdate j s e n).name = j.name ∧
    (applyStatusUpdate j s e n).data = j.data ∧
    (applyStatusUpdate j s e n).scheduledAt = j.scheduledAt ∧
    (applyStatusUpdate j s e n).attempts = j.attempts ∧
    (applyStatusUpdate j s e n).userId = j.userId ∧
    (applyStatusUpdate j s e n).priority = j.priority ∧
    (applyStatusUpdate j s e n).maxRetries = j.maxRetries ∧
    (applyStatusUpdate j s e n).retryDelay = j.retryDelay ∧
    (applyStatusUpdate j s e n).timeout = j.timeout := by
  unfold applyStatusUpdate
  cases s <;> cases e <;> simp <;> split <;> simp

/-- The update document of updateJobStatus always sets the target status. -/
theorem applyStatusUpdate_status (j : Job) (s : JobStatus) (e : Option String)
    (n : Nat) : (applyStatusUpdate j s e n).status = s := by
  unfold applyStatusUpdate
  cases s <;> cases e <;> simp <;> split <;> simp

/-- Reading back the updated id after a keyed update applies the update
function to the previously read record, provided the update function
preserves ids. -/
theorem getJobById_updateById (s : List Job) (id : String) (f : Job → Job)
    (hf : ∀ j, (f j).id = j.id) :
    getJobById (updateById s id f) id = (getJobById s id).map f := by
  induction s with
  | nil => rfl
  | cons a t ih =>
      simp only [getJobById, updateById, List.map_cons] at *
      by_cases h : a.id = id
      · simp [List.find?_cons, h, hf]
      · rw [if_neg (by simp [h])]
        rw [List.find?_cons_of_neg _ (by simp [h]),
          List.find?_cons_of_neg _ (by simp [h])]
        exact ih

/-- Field projection of the status update: id is never written. -/
@[simp] theorem applyStatusUpdate_id (k : Job) (s : JobStatus)
    (e : Option String) (n : Nat) : (applyStatusUpdate k s e n).id = k.id := by
  cases s with
  | running => rfl
  | completed => rfl
  | pending => rfl
  | failed =>
      cases e with
      | none => rfl
      | some m =>
          by_cases hm : m = ""
          · simp [applyStatusUpdate, hm]
          · simp [applyStatusUpdate, hm]

/-- Field projection of the status update: scheduledAt is never written. -/
@[simp] theorem applyStatusUpdate_scheduledAt (k : Job) (s : JobStatus)
    (e : Option String) (n : Nat) :
    (applyStatusUpdate k s e n).scheduledAt = k.scheduledAt := by
  cases s with
  | running => rfl
  | completed => rfl
  | pending => rfl
  | failed =>
      cases e with
      | none => rfl
      | some m =>
          by_cases hm : m = ""
          · simp [applyStatusUpdate, hm]
          · simp [applyStatusUpdate, hm]

/-- Field projection of the status update: attempts is never written. -/
@[simp] theorem applyStatusUpdate_attempts (k : Job) (s : JobStatus)
    (e : Option String) (n : Nat) :
    (applyStatusUpdate k s e n).attempts = k.attempts := by
  cases s with
  | running => rfl
  | completed => rfl
  | pending => rfl
  | failed =>
      cases e with
      | none => rfl
      | some m =>
          by_cases hm : m = ""
          · simp [applyStatusUpdate, hm]
          · simp [applyStatusUpdate, hm]

/-- Field projection of the status update: maxRetries is never written. -/
@[simp] theorem applyStatusUpdate_maxRetries (k : Job) (s : JobStatus)
    (e : Option String) (n : Nat) :
    (applyStatusUpdate k s e n).maxRetries = k.maxRetries := by
  cases s with
  | running => rfl
  | completed => rfl
  | pending => rfl
  | failed =>
      cases e with
      | none => rfl
      | some m =>
          by_cases hm : m = ""
          · simp [applyStatusUpdate, hm]
          · simp [applyStatusUpdate, hm]

/-- Field projection of the status update: retryDelay is never written. -/
@[simp] theorem applyStatusUpdate_retryDelay (k : Job) (s : JobStatus)
    (e : Option String) (n : Nat) :
    (applyStatusUpdate k s e n).retryDelay = k.retryDelay := by
  cases s with
  | running => rfl
  | completed => rfl
  | pending => rfl
  | failed =>
      cases e with
      | none => rfl
      | some m =>
          by_cases hm : m = ""
          · simp [applyStatusUpdate, hm]
          · simp [applyStatusUpdate, hm]

/-- Field projection of the status update: timeout is never written. -/
@[simp] theorem applyStatusUpdate_timeout (k : Job) (s : JobStatus)
    (e : Option String) (n : Nat) :
    (applyStatusUpdate k s e n).timeout = k.timeout := by
  cases s with
  | running => rfl
  | completed => rfl
  | pending => rfl
  | failed =>
      cases e with
      | none => rfl
      | some m =>
          by_cases hm : m = ""
          · simp [applyStatusUpdate, hm]
          · simp [applyStatusUpdate, hm]

/-- Field projection of the status update: priority is never written. -/
@[simp] theorem applyStatusUpdate_priority (k : Job) (s : JobStatus)
    (e : Option String) (n : Nat) :
    (applyStatusUpdate k s e n).priority = k.priority := by
  cases s with
  | running => rfl
  | completed => rfl
  | pending => rfl
  | failed =>
      cases e with
      | none => rfl
      | some m =>
          by_cases hm : m = ""
          · simp [applyStatusUpdate, hm]
          · simp [applyStatusUpdate, hm]

/-- Field projection of the status update: name is never written. -/
@[simp] theorem applyStatusUpdate_name (k : Job) (s : JobStatus)
    (e : Option String) (n : Nat) : (applyStatusUpdate k s e n).name = k.name := by
  cases s with
  | running => rfl
  | completed => rfl
  | pending => rfl
  | failed =>
      cases e with
      | none => rfl
      | some m =>
          by_cases hm : m = ""
          · simp [applyStatusUpdate, hm]
          · simp [applyStatusUpdate, hm]

/-- Reading back after updateJobStatus applies the status-update document to
the previously read record. -/
theorem getJobById_updateJobStatus (s : List Job) (id : String)
    (stt : JobStatus) (e : Option String) (n : Nat) :
    getJobById (updateJobStatus s id stt e n) id =
      (getJobById s id).map (fun k => applyStatusUpdate k stt e n) := by
  unfold updateJobStatus
  exact getJobById_updateById s id _ (fun k => applyStatusUpdate_id k stt e n)

/-- Reading back after incrementJobAttempts applies the increment to the
previously read record. -/
theorem getJobById_incrementJobAttempts (s : List Job) (id : String) :
    getJobById (incrementJobAttempts s id) id =
      (getJobById s id).map (fun k => { k with attempts := k.attempts + 1 }) := by
  unfold incrementJobAttempts
  exact getJobById_updateById s id _ (fun k => rfl)

/-- Proof-layer name for the store state reached inside runHandler after the
Running write, the attempt increment and the Failed write. -/
def failStore (now : Nat) (store : List Job) (job : Job) (msg : String) :
    List Job :=
  updateJobStatus
    (incrementJobAttempts
      (updateJobStatus store job.id JobStatus.running none now) job.id)
    job.id JobStatus.failed (some msg) now

/-- Proof-layer name for the record a failing run leaves in the store before
any retry write: Running stamped, attempts incremented, then Failed with the
message. -/
def failedSnapshot (j : Job) (msg : String) (now : Nat) : Job :=
  applyStatusUpdate
    { applyStatusUpdate j JobStatus.running none now with
      attempts := (applyStatusUpdate j JobStatus.running none now).attempts + 1 }
    JobStatus.failed (some msg) now

/-- Unfolding of runHandler on a handler run that throws (or times out),
given the record the post-failure reread finds. -/
theorem runHandler_thrownEq (h : Job → Outcome) (now : Nat)
    (store : List Job) (job : Job) (msg : String) (u : Job)
    (hout : h job = Outcome.thrown msg)
    (hu : getJobById (failStore now store job msg) job.id = some u) :
    runHandler h now store job =
      (if u.attempts < u.maxRetries then
        updateJobStatus (failStore now store job msg) u.id
          JobStatus.pending none now
      else failStore now store job msg) := by
  unfold runHandler
  unfold failStore at hu
  simp only [hout, hu]
  unfold failStore
  rfl

/-- Unfolding of runHandler on a handler run that resolves with a reported
failure carrying an error message, given the record the post-failure reread
finds; the Pending write is performed twice in this branch of the source. -/
theorem runHandler_resultFailureEq (h : Job → Outcome) (now : Nat)
    (store : List Job) (job : Job) (msg : String) (u : Job)
    (hout : h job = Outcome.resultFailure (some msg))
    (hu : getJobById (failStore now store job msg) job.id = some u) :
    runHandler h now store job =
      (if u.attempts < u.maxRetries then
        updateJobStatus
          (updateJobStatus (failStore now store job msg) u.id
            JobStatus.pending none now)
          u.id JobStatus.pending none now
      else failStore now store job msg) := by
  unfold runHandler
  unfold failStore at hu
  simp only [hout, hu]
  unfold failStore
  rfl

/-- Reading the failed job back from failStore gives the failedSnapshot. -/
theorem getJobById_failStore (now : Nat) (store : List Job) (j : Job)
    (msg : String) (hfind : getJobById store j.id = some j) :
    getJobById (failStore now store j msg) j.id =
      some (failedSnapshot j msg now) := by
  unfold failStore failedSnapshot
  rw [getJobById_updateJobStatus, getJobById_incrementJobAttempts,
    getJobById_updateJobStatus, hfind]
  rfl

/-- The failedSnapshot carries the incremented attempt count, the original
policy and scheduling fields, and the Failed status. -/
theorem failedSnapshot_fields (j : Job) (msg : String) (now : Nat) :
    (failedSnapshot j msg now).id = j.id ∧
    (failedSnapshot j msg now).attempts = j.attempts + 1 ∧
    (failedSnapshot j msg now).maxRetries = j.maxRetries ∧
    (failedSnapshot j msg now).retryDelay = j.retryDelay ∧
    (failedSnapshot j msg now).timeout = j.timeout ∧
    (failedSnapshot j msg now).priority = j.priority ∧
    (failedSnapshot j msg now).name = j.name ∧
    (failedSnapshot j msg now).scheduledAt = j.scheduledAt ∧
    (failedSnapshot j msg now).status = JobStatus.failed := by
  unfold failedSnapshot
  refine ⟨by simp, by simp, by simp, by simp, by simp, by simp, by simp,
    by simp, ?_⟩
  exact applyStatusUpdate_status _ _ _ _

/-- Store effect of a failing handler run: the job record keyed by the
dispatched id ends with attempts incremented once, every identity, policy
and scheduling field unchanged, and status Pending exactly when the
incremented attempt count is still strictly below maxRetries, Failed
otherwise. -/
theorem runHandler_failure (hb : Job → Outcome) (now : Nat)
    (store : List Job) (j : Job) (msg : String)
    (hfind : getJobById store j.id = some j)
    (hout : hb j = Outcome.thrown msg ∨
      hb j = Outcome.resultFailure (some msg)) :
    ∃ jf, getJobById (runHandler hb now store j) j.id = some jf ∧
      jf.status = (if j.attempts + 1 < j.maxRetries then JobStatus.pending
        else JobStatus.failed) ∧
      jf.attempts = j.attempts + 1 ∧
      jf.scheduledAt = j.scheduledAt ∧
      jf.maxRetries = j.maxRetries ∧
      jf.retryDelay = j.retryDelay ∧
      jf.timeout = j.timeout ∧
      jf.priority = j.priority ∧
      jf.name = j.name ∧
      jf.id = j.id := by
  have eF := getJobById_failStore now store j msg hfind
  obtain ⟨hsid, hsa, hsm, hsr, hst, hsp, hsn, hss, hsf⟩ :=
    failedSnapshot_fields j msg now
  rcases hout with h | h
  · rw [runHandler_thrownEq hb now store j msg _ h eF]
    by_cases hlt : j.attempts + 1 < j.maxRetries
    · have hlt2 : (failedSnapshot j msg now).attempts <
          (failedSnapshot j msg now).maxRetries := by rw [hsa, hsm]; exact hlt
      rw [if_pos hlt2, hsid, getJobById_updateJobStatus, eF]
      refine ⟨applyStatusUpdate (failedSnapshot j msg now) JobStatus.pending
        none now, rfl, ?_, by simp [hsa], by simp [hss], by simp [hsm],
        by simp [hsr], by simp [hst], by simp [hsp], by simp [hsn],
        by simp [hsid]⟩
      rw [if_pos hlt]
      exact applyStatusUpdate_status _ _ _ _
    · have hlt2 : ¬ (failedSnapshot j msg now).attempts <
          (failedSnapshot j msg now).maxRetries := by rw [hsa, hsm]; exact hlt
      rw [if_neg hlt2, eF]
      refine ⟨failedSnapshot j msg now, rfl, ?_, hsa, hss, hsm, hsr, hst,
        hsp, hsn, hsid⟩
      rw [if_neg hlt]
      exact hsf
  · rw [runHandler_resultFailureEq hb now store j msg _ h eF]
    by_cases hlt : j.attempts + 1 < j.maxRetries
    · have hlt2 : (failedSnapshot j msg now).attempts <
          (failedSnapshot j msg now).maxRetries := by rw [hsa, hsm]; exact hlt
      rw [if_pos hlt2, hsid, getJobById_updateJobStatus,
        getJobById_updateJobStatus, eF]
      refine ⟨applyStatusUpdate (applyStatusUpdate (failedSnapshot j msg now)
        JobStatus.pending none now) JobStatus.pending none now, rfl, ?_,
        by simp [hsa], by simp [hss], by simp [hsm], by simp [hsr],
        by simp [hst], by simp [hsp], by simp [hsn], by simp [hsid]⟩
      rw [if_pos hlt]
      exact applyStatusUpdate_status _ _ _ _
    · have hlt2 : ¬ (failedSnapshot j msg now).attempts <
          (failedSnapshot j msg now).maxRetries := by rw [hsa, hsm]; exact hlt
      rw [if_neg hlt2, eF]
      refine ⟨failedSnapshot j msg now, rfl, ?_, hsa, hss, hsm, hsr, hst,
        hsp, hsn, hsid⟩
      rw [if_neg hlt]
      exact hsf

/-- Unfolding of processJob on an id already in the active set: no effect at
all, the double-dispatch guard. -/
theorem processJob_skip (handlers : Handlers) (now : Nat) (st : SchedState)
    (job : Job) (h : job.id ∈ st.active) :
    processJob handlers now st job = st := by
  unfold processJob
  rw [if_pos h]

/-- Unfolding of processJob when no handler is registered for the name. -/
theorem processJob_noHandlerEq (handlers : Handlers) (now : Nat)
    (st : SchedState) (job : Job) (hact : job.id ∉ st.active)
    (hh : handlers job.name = none) :
    processJob handlers now st job =
      { st with store := (updateJobStatus st.store job.id JobStatus.failed
          (some ("No handler registered for job type: " ++ job.name)) now) } := by
  unfold processJob
  rw [if_neg hact]
  simp only [hh]

/-- Unfolding of processJob when a handler is registered for the name. -/
theorem processJob_runEq (handlers : Handlers) (now : Nat) (st : SchedState)
    (job : Job) (hb : Job → Outcome) (hact : job.id ∉ st.active)
    (hh : handlers job.name = some hb) :
    processJob handlers now st job =
      { store := runHandler hb now st.store job,
        active := removeActive (addActive st.active job.id) job.id } := by
  unfold processJob
  rw [if_neg hact]
  simp only [hh]

/-- Adding to the active set grows it by at most one element. -/
theorem addActive_length_le (a : List String) (id : String) :
    (addActive a id).length ≤ a.length + 1 := by
  unfold addActive
  split
  · omega
  · simp

/-- Adding to the active set keeps every element already in it. -/
theorem addActive_subset (a : List String) (id : String) :
    a ⊆ addActive a id := by
  unfold addActive
  split
  · exact fun x hx => hx
  · exact fun x hx => List.mem_cons_of_mem _ hx

/-- One dispatch step grows the active set by at most one element. -/
theorem dispatchStep_active_le (handlers : Handlers) (now : Nat)
    (acc : SchedState × List String) (job : Job) :
    (dispatchStep handlers now acc job).1.active.length ≤
      acc.1.active.length + 1 := by
  unfold dispatchStep
  split
  · omega
  · split
    · simp
    · simpa using addActive_length_le acc.1.active job.id

/-- One dispatch step never removes an id from the active set. -/
theorem dispatchStep_active_subset (handlers : Handlers) (now : Nat)
    (acc : SchedState × List String) (job : Job) :
    acc.1.active ⊆ (dispatchStep handlers now acc job).1.active := by
  unfold dispatchStep
  split
  · exact fun x hx => hx
  · split
    · exact fun x hx => hx
    · simpa using addActive_subset acc.1.active job.id

/-- An id recorded as started by one dispatch step was either already in the
started accumulator or was not in the active set when the step ran. -/
theorem dispatchStep_started (handlers : Handlers) (now : Nat)
    (acc : SchedState × List String) (job : Job) (id : String)
    (hmem : id ∈ (dispatchStep handlers now acc job).2) :
    id ∈ acc.2 ∨ id ∉ acc.1.active := by
  unfold dispatchStep at hmem
  by_cases hact : job.id ∈ acc.1.active
  · rw [if_pos hact] at hmem
    exact Or.inl hmem
  · rw [if_neg hact] at hmem
    cases hh : handlers job.name with
    | none =>
        simp only [hh] at hmem
        exact Or.inl hmem
    | some hb =>
        simp only [hh] at hmem
        rcases List.mem_append.mp hmem with h | h
        · exact Or.inl h
        · have : id = job.id := by simpa using h
          subst this
          exact Or.inr hact

/-- Folding dispatch steps over a batch grows the active set by at most the
batch length. -/
theorem foldl_dispatch_active_le (handlers : Handlers) (now : Nat) :
    ∀ (jobs : List Job) (acc : SchedState × List String),
    ((jobs.foldl (dispatchStep handlers now) acc).1.active.length ≤
      acc.1.active.length + jobs.length) := by
  intro jobs
  induction jobs with
  | nil => intro acc; simp
  | cons a t ih =>
      intro acc
      have h1 := ih (dispatchStep handlers now acc a)
      have h2 := dispatchStep_active_le handlers now acc a
      simp only [List.foldl_cons, List.length_cons]
      omega

/-- Folding dispatch steps over a batch never removes ids from the active
set. -/
theorem foldl_dispatch_active_subset (handlers : Handlers) (now : Nat) :
    ∀ (jobs : List Job) (acc : SchedState × List String),
    acc.1.active ⊆ (jobs.foldl (dispatchStep handlers now) acc).1.active := by
  intro jobs
  induction jobs with
  | nil => intro acc; exact fun x hx => hx
  | cons a t ih =>
      intro acc
      exact fun x hx =>
        ih (dispatchStep handlers now acc a)
          (dispatchStep_active_subset handlers now acc a hx)

/-- An id recorded as started while folding a batch was either already in
the started accumulator or outside the active set the fold began with. -/
theorem foldl_dispatch_started (handlers : Handlers) (now : Nat) :
    ∀ (jobs : List Job) (acc : SchedState × List String) (id : String),
    id ∈ (jobs.foldl (dispatchStep handlers now) acc).2 →
      id ∈ acc.2 ∨ id ∉ acc.1.active := by
  intro jobs
  induction jobs with
  | nil => intro acc id h; exact Or.inl h
  | cons a t ih =>
      intro acc id h
      rcases ih (dispatchStep handlers now acc a) id h with h1 | h1
      · exact dispatchStep_started handlers now acc a id h1
      · refine Or.inr fun hmem => ?_
        exact h1 (dispatchStep_active_subset handlers now acc a hmem)

/-- Inserting into the sorted list adds exactly one element. -/
theorem insertJob_length (le : Job → Job → Bool) (j : Job) :
    ∀ l : List Job, (insertJob le j l).length = l.length + 1 := by
  intro l
  induction l with
  | nil => rfl
  | cons k ks ih =>
      unfold insertJob
      split
      · simp
      · simpa using ih

/-- The modelled query sort preserves length. -/
theorem sortJobs_length (le : Job → Job → Bool) :
    ∀ l : List Job, (sortJobs le l).length = l.length := by
  intro l
  induction l with
  | nil => rfl
  | cons k ks ih =>
      unfold sortJobs
      rw [insertJob_length, ih]
      rfl

/-- getPendingJobs returns at most limit jobs. -/
theorem getPendingJobs_length_le (store : List Job) (now limit : Nat) :
    (getPendingJobs store now limit).length ≤ limit := by
  unfold getPendingJobs
  rw [List.length_take]
  exact min_le_left _ _

/-- After erasing the first document with a given id from a store whose ids
are pairwise distinct, no document with that id remains. -/
theorem eraseP_id_not_mem (store : List Job) (id : String)
    (hnd : (store.map Job.id).Nodup) :
    ∀ k ∈ store.eraseP (fun j => j.id == id), k.id ≠ id := by
  induction store with
  | nil => simp
  | cons a t ih =>
      have hnd2 : (a.id ∉ t.map Job.id) ∧ (t.map Job.id).Nodup := by
        simpa [List.nodup_cons] using hnd
      intro k hk
      by_cases ha : a.id = id
      · rw [List.eraseP_cons_of_pos (by simp [ha])] at hk
        intro hkid
        exact hnd2.1 (by
          rw [ha, ← hkid]
          exact List.mem_map_of_mem _ hk)
      · rw [List.eraseP_cons_of_neg (by simp [ha])] at hk
        rcases List.mem_cons.mp hk with h | h
        · subst h; exact ha
        · exact ih hnd2.2 k h

/-!
The claim theorems.
-/

/-- C1 (counterexample): a job whose handler always throws, with
maxRetries one, dispatched from a fresh state.  The claim predicts that
after the first failure (attempts one, equal to maxRetries, hence attempts
less than or equal to maxRetries) the job returns to Pending, and that after
two ticks exactly two attempts are recorded.  The code compares attempts
strictly against maxRetries, so the job is already permanently Failed after
the first tick with a single attempt, and the second tick does not touch
it. -/
theorem retry_boundary_cex :
    boomJob.maxRetries = 1 ∧ boomJob.attempts = 0 ∧
    (getJobById stBoom1.store "boom1").map Job.status =
      some JobStatus.failed ∧
    (getJobById stBoom1.store "boom1").map Job.attempts = some 1 ∧
    (getJobById stBoom2.store "boom1").map Job.status =
      some JobStatus.failed ∧
    (getJobById stBoom2.store "boom1").map Job.attempts = some 1 ∧
    ¬ (getJobById stBoom2.store "boom1").map Job.attempts = some 2 := by
  decide

/-- C1 (amended): after a failing execution attempt the job returns to
Pending exactly when the incremented attempt count is still strictly below
maxRetries; when attempts have reached maxRetries the job stays Failed, and
the attempt count always advances by one. -/
theorem processJob_retry_iff_attempts_lt (handlers : Handlers) (now : Nat)
    (st : SchedState) (j : Job) (hb : Job → Outcome) (msg : String)
    (hfind : getJobById st.store j.id = some j)
    (hact : j.id ∉ st.active)
    (hh : handlers j.name = some hb)
    (hout : hb j = Outcome.thrown msg ∨
      hb j = Outcome.resultFailure (some msg)) :
    ∃ jf, getJobById (processJob handlers now st j).store j.id = some jf ∧
      jf.attempts = j.attempts + 1 ∧
      jf.status = (if j.attempts + 1 < j.maxRetries then JobStatus.pending
        else JobStatus.failed) := by
  rw [processJob_runEq handlers now st j hb hact hh]
  obtain ⟨jf, h1, h2, h3, _⟩ := runHandler_failure hb now st.store j msg
    hfind hout
  exact ⟨jf, h1, h3, h2⟩

/-- C1 (witness): instance of the amended retry boundary at a concrete
job with maxRetries three. -/
theorem processJob_retry_iff_attempts_lt_witness :
    ∃ jf, getJobById (processJob boomHandlers 700 stRetry0 boomJob3).store
        boomJob3.id = some jf ∧
      jf.attempts = boomJob3.attempts + 1 ∧
      jf.status = (if boomJob3.attempts + 1 < boomJob3.maxRetries then
        JobStatus.pending else JobStatus.failed) :=
  processJob_retry_iff_attempts_lt boomHandlers 700 stRetry0 boomJob3
    (fun _ => Outcome.thrown "boom error") "boom error" (by decide)
    (by decide) rfl (Or.inl rfl)

/-- C2 (code bug): the getPendingJobs query sorts the stored priority
strings descending, and MongoDB compares the enum strings low, normal, high
bytewise, under which low is greater than high; so of two due Pending jobs,
High due later and Low due earlier, the Low job is returned first when only
one slot is available, in either store order. -/
theorem getPendingJobs_low_before_high :
    getPendingJobs [jobHighLater, jobLowEarlier] 20 1 = [jobLowEarlier] ∧
    getPendingJobs [jobLowEarlier, jobHighLater] 20 1 = [jobLowEarlier] ∧
    jobHighLater.priority = JobPriority.high ∧
    jobLowEarlier.priority = JobPriority.low ∧
    isDueB 20 jobHighLater = true ∧
    isDueB 20 jobLowEarlier = true ∧
    jobLowEarlier.scheduledAt < jobHighLater.scheduledAt := by
  decide

/-- C3: one dispatch tick never lets the active set exceed
maxConcurrentJobs, fetches at most the number of free slots, skips outright
when the active set is full, and never initiates dispatch for an id that was
already in the active set when the tick began. -/
theorem processNextJobs_admission (handlers : Handlers) (now N : Nat)
    (st : SchedState) (hle : st.active.length ≤ N) :
    (processNextJobs handlers now N st).1.active.length ≤ N ∧
    (∀ id ∈ st.active, id ∉ (processNextJobs handlers now N st).2) ∧
    (N ≤ st.active.length → processNextJobs handlers now N st = (st, [])) ∧
    (getPendingJobs st.store now (N - st.active.length)).length ≤
      N - st.active.length := by
  unfold processNextJobs
  by_cases hfull : N ≤ st.active.length
  · rw [if_pos hfull]
    exact ⟨hle, fun id hid h => by simp at h, fun _ => rfl,
      getPendingJobs_length_le _ _ _⟩
  · rw [if_neg hfull]
    refine ⟨?_, ?_, fun hN => absurd hN hfull,
      getPendingJobs_length_le _ _ _⟩
    · show (List.foldl (dispatchStep handlers now) (st, [])
        (getPendingJobs st.store now
          (N - st.active.length))).1.active.length ≤ N
      have h1 : (List.foldl (dispatchStep handlers now) (st, [])
          (getPendingJobs st.store now
            (N - st.active.length))).1.active.length ≤
          st.active.length +
            (getPendingJobs st.store now (N - st.active.length)).length :=
        foldl_dispatch_active_le handlers now
          (getPendingJobs st.store now (N - st.active.length)) (st, [])
      have h2 := getPendingJobs_length_le st.store now
        (N - st.active.length)
      omega
    · intro id hid hmem
      rcases foldl_dispatch_started handlers now
        (getPendingJobs st.store now (N - st.active.length)) (st, [])
        id hmem with h | h
      · simp at h
      · exact h hid

/-- C3 (witness): instance of the admission bound on a fresh single-job
state with ten slots. -/
theorem processNextJobs_admission_witness :
    (processNextJobs boomHandlers 50 10 stBoom0).1.active.length ≤ 10 :=
  (processNextJobs_admission boomHandlers 50 10 stBoom0 (by decide)).1

/-- C4: the automatic retry write after a failed attempt is a Pending
status update whose document touches no other field, so the retried job
keeps its original scheduledAt (it is not pushed to now plus retryDelay,
although that instant is computed) and is due again at any instant at which
it was already due. -/
theorem retry_writes_only_status (handlers : Handlers) (now : Nat)
    (st : SchedState) (j : Job) (hb : Job → Outcome) (msg : String)
    (hfind : getJobById st.store j.id = some j)
    (hact : j.id ∉ st.active)
    (hh : handlers j.name = some hb)
    (hout : hb j = Outcome.thrown msg ∨
      hb j = Outcome.resultFailure (some msg))
    (hretry : j.attempts + 1 < j.maxRetries) :
    (∀ (k : Job) (e : Option String) (n : Nat),
      applyStatusUpdate k JobStatus.pending e n =
        { k with status := JobStatus.pending }) ∧
    ∃ jf, getJobById (processJob handlers now st j).store j.id = some jf ∧
      jf.status = JobStatus.pending ∧
      jf.scheduledAt = j.scheduledAt ∧
      jf.retryDelay = j.retryDelay ∧
      jf.attempts = j.attempts + 1 ∧
      (∀ t, j.scheduledAt ≤ t → isDueB t jf = true) := by
  refine ⟨fun k e n => rfl, ?_⟩
  rw [processJob_runEq handlers now st j hb hact hh]
  obtain ⟨jf, h1, h2, h3, h4, _, h5, _⟩ := runHandler_failure hb now
    st.store j msg hfind hout
  rw [if_pos hretry] at h2
  refine ⟨jf, h1, h2, h4, h5, h3, fun t ht => ?_⟩
  have hbeq : (JobStatus.pending == JobStatus.pending) = true := rfl
  simp [isDueB, h2, h4, ht, hbeq]

/-- C4 (witness): instance of the frame property of the retry write at a
concrete job with two retries left. -/
theorem retry_writes_only_status_witness :
    ∃ jf, getJobById (processJob boomHandlers 700 stRetry0 boomJob3).store
        boomJob3.id = some jf ∧
      jf.status = JobStatus.pending ∧
      jf.scheduledAt = boomJob3.scheduledAt ∧
      jf.retryDelay = boomJob3.retryDelay ∧
      jf.attempts = boomJob3.attempts + 1 ∧
      (∀ t, boomJob3.scheduledAt ≤ t → isDueB t jf = true) :=
  (retry_writes_only_status boomHandlers 700 stRetry0 boomJob3
    (fun _ => Outcome.thrown "boom error") "boom error" (by decide)
    (by decide) rfl (Or.inl rfl) (by decide)).2

/-- C5 (counterexample): dispatching a fresh job with no registered handler
marks it Failed with the descriptive message, but no attempt is recorded
(attempts stays zero, not one as the claim requires) and the retry policy is
not consulted, although the retry budget (maxRetries one, attempts zero) was
not exhausted. -/
theorem missing_handler_cex :
    (getJobById (processJob emptyHandlers 500 stBoom0 boomJob).store
      "boom1").map Job.status = some JobStatus.failed ∧
    (getJobById (processJob emptyHandlers 500 stBoom0 boomJob).store
      "boom1").map Job.attempts = some 0 ∧
    ¬ (getJobById (processJob emptyHandlers 500 stBoom0 boomJob).store
      "boom1").map Job.attempts = some 1 ∧
    (getJobById (processJob emptyHandlers 500 stBoom0 boomJob).store
      "boom1").map Job.errorMessage =
        some (some "No handler registered for job type: boom") ∧
    boomJob.attempts = 0 ∧ boomJob.maxRetries = 1 := by
  decide

/-- C5 (amended): when no handler is registered for the dispatched name the
job is marked Failed with the descriptive message naming the job type, but
outside the retry machinery: the attempt count is not incremented, the
retry policy is never consulted, and the active set is untouched. -/
theorem processJob_missing_handler (handlers : Handlers) (now : Nat)
    (st : SchedState) (j : Job)
    (hfind : getJobById st.store j.id = some j)
    (hact : j.id ∉ st.active)
    (hh : handlers j.name = none) :
    (processJob handlers now st j).active = st.active ∧
    ∃ jf, getJobById (processJob handlers now st j).store j.id = some jf ∧
      jf.status = JobStatus.failed ∧
      jf.errorMessage =
        some ("No handler registered for job type: " ++ j.name) ∧
      jf.attempts = j.attempts ∧
      jf.scheduledAt = j.scheduledAt := by
  rw [processJob_noHandlerEq handlers now st j hact hh]
  refine ⟨rfl, ?_⟩
  rw [getJobById_updateJobStatus, hfind]
  have hne : ("No handler registered for job type: " ++ j.name) ≠ "" := by
    intro hcon
    have hlen := congrArg String.length hcon
    rw [String.length_append] at hlen
    simp at hlen
    exact absurd hlen.1 (by decide)
  refine ⟨applyStatusUpdate j JobStatus.failed
    (some ("No handler registered for job type: " ++ j.name)) now, rfl,
    applyStatusUpdate_status _ _ _ _, ?_, by simp, by simp⟩
  simp [applyStatusUpdate, hne]

/-- C5 (witness): instance of the missing-handler behavior at a concrete
fresh job. -/
theorem processJob_missing_handler_witness :
    (processJob emptyHandlers 500 stBoom0 boomJob).active =
      stBoom0.active ∧
    ∃ jf, getJobById (processJob emptyHandlers 500 stBoom0 boomJob).store
        boomJob.id = some jf ∧
      jf.status = JobStatus.failed ∧
      jf.errorMessage =
        some ("No handler registered for job type: " ++ boomJob.name) ∧
      jf.attempts = boomJob.attempts ∧
      jf.scheduledAt = boomJob.scheduledAt :=
  processJob_missing_handler emptyHandlers 500 stBoom0 boomJob (by decide)
    (by decide) rfl

/-- C6: cancelJob returns true, deleting the job, exactly when a job with
the id exists and is Pending; for an absent id or a job in any other state
it returns false and leaves the store untouched; on success no job with the
id remains. -/
theorem cancelJob_pending_only (store : List Job) (id : String)
    (hnd : (store.map Job.id).Nodup) :
    ((cancelJob store id).1 = true ↔
      ∃ j ∈ store, j.id = id ∧ j.status = JobStatus.pending) ∧
    ((cancelJob store id).1 = false → (cancelJob store id).2 = store) ∧
    ((cancelJob store id).1 = true →
      ∀ k ∈ (cancelJob store id).2, k.id ≠ id) := by
  cases hf : getJobById store id with
  | none =>
      have hnone := List.find?_eq_none.mp hf
      have hc : cancelJob store id = (false, store) := by
        unfold cancelJob
        simp only [hf]
      rw [hc]
      refine ⟨?_, fun _ => rfl, fun htrue => by simp at htrue⟩
      constructor
      · intro h; simp at h
      · rintro ⟨j, hj, hjid, _⟩
        exact absurd (by simp [hjid]) (hnone j hj)
  | some j =>
      have hjid : j.id = id := by simpa using List.find?_some hf
      have hjmem : j ∈ store := List.mem_of_find?_eq_some hf
      by_cases hst : j.status = JobStatus.pending
      · have hany : (store.any fun k => k.id == id) = true :=
          List.any_eq_true.mpr ⟨j, hjmem, by simp [hjid]⟩
        have hc : cancelJob store id =
            (store.any fun k => k.id == id,
              store.eraseP fun k => k.id == id) := by
          unfold cancelJob
          simp only [hf]
          rw [if_neg (by simp [hst])]
          rfl
        rw [hc]
        refine ⟨?_, ?_, ?_⟩
        · rw [hany]
          exact iff_of_true rfl ⟨j, hjmem, hjid, hst⟩
        · intro hfalse
          rw [hany] at hfalse
          simp at hfalse
        · intro _ k hk
          exact eraseP_id_not_mem store id hnd k hk
      · have hc : cancelJob store id = (false, store) := by
          unfold cancelJob
          simp only [hf]
          rw [if_pos hst]
        rw [hc]
        refine ⟨?_, fun _ => rfl, fun htrue => by simp at htrue⟩
        constructor
        · intro h; simp at h
        · rintro ⟨k, hkmem, hkid, hkst⟩
          have hkj : k = j := List.inj_on_of_nodup_map hnd hkmem hjmem
            (by rw [hkid, hjid])
          exact absurd (hkj ▸ hkst) hst

/-- C6 (witness): cancelling a concrete Pending job succeeds. -/
theorem cancelJob_pending_only_witness :
    (cancelJob [jobLowEarlier] "low1").1 = true :=
  ((cancelJob_pending_only [jobLowEarlier] "low1" (by decide)).1).mpr
    ⟨jobLowEarlier, by decide, by decide, by decide⟩

/-- C7: retryJob on an existing job that is not Failed raises the state
error naming the current status; on a Failed job it returns the record moved
to Pending with attempts and scheduledAt untouched, writing back only the
Pending status. -/
theorem retryJob_state_guard (store : List Job) (id : String) (now : Nat)
    (j : Job) (hf : getJobById store id = some j) :
    (j.status ≠ JobStatus.failed →
      retryJob store id now =
        .error ("Cannot retry job with status: " ++ j.status.str)) ∧
    (j.status = JobStatus.failed →
      retryJob store id now =
        .ok (some { j with status := JobStatus.pending },
          updateJobStatus store id JobStatus.pending none now) ∧
      Job.attempts { j with status := JobStatus.pending } = j.attempts ∧
      Job.scheduledAt { j with status := JobStatus.pending } =
        j.scheduledAt) := by
  unfold retryJob
  simp only [hf]
  constructor
  · intro hne
    rw [if_pos hne]
  · intro heq
    rw [if_neg (by simp [heq])]
    refine ⟨?_, by simp, by simp⟩
    rw [getJobById_updateJobStatus, hf]
    rfl

/-- C7 (witness): retrying a concrete Pending job raises the state error,
and retrying a concrete Failed job moves it to Pending. -/
theorem retryJob_state_guard_witness :
    retryJob [jobLowEarlier] "low1" 9 =
      .error "Cannot retry job with status: pending" ∧
    retryJob [failedJob] "f1" 9 =
      .ok (some { failedJob with status := JobStatus.pending },
        updateJobStatus [failedJob] "f1" JobStatus.pending none 9) :=
  ⟨(retryJob_state_guard [jobLowEarlier] "low1" 9 jobLowEarlier rfl).1
      (by decide),
    ((retryJob_state_guard [failedJob] "f1" 9 failedJob rfl).2 rfl).1⟩

/-- C8 (counterexample): at instant zero the unrecognized expression
7 3 2 1 5 falls back to 360000 milliseconds, six minutes, not the five
minutes the claim states; and 0 * 9 9 9, which is none of the five
canonical patterns, is captured by the hourly branch rather than the
fallback. -/
theorem nextRun_fallback_cex :
    getNextRunTime "7 3 2 1 5" 0 = 360000 ∧
    ¬ getNextRunTime "7 3 2 1 5" 0 = 300000 ∧
    getNextRunTime "0 * 9 9 9" 0 = 3600000 ∧
    ¬ getNextRunTime "0 * 9 9 9" 0 = 300000 := by
  decide

/-- C8 (amended): for every expression failing all five pattern guards the
calculator returns the minute-floored instant plus one plus five minutes,
an instant strictly more than five and at most six minutes after now; a
recurring job scheduled with such an expression has its first occurrence
created at exactly that instant. -/
theorem nextRun_fallback_six_minutes (cronExpression : String) (T : Nat)
    (h0 : ¬ cronExpression = "* * * * *")
    (h1 : ¬ (cronPart cronExpression 0 = "0" ∧
      cronPart cronExpression 1 = "*"))
    (h2 : ¬ (cronPart cronExpression 0 = "0" ∧
      cronPart cronExpression 1 = "0" ∧ cronPart cronExpression 2 = "*"))
    (h3 : ¬ (cronPart cronExpression 0 = "0" ∧
      cronPart cronExpression 1 = "0" ∧ cronPart cronExpression 4 = "0"))
    (h4 : ¬ (cronPart cronExpression 0 = "0" ∧
      cronPart cronExpression 1 = "0" ∧ cronPart cronExpression 2 = "1")) :
    getNextRunTime cronExpression T = cronBase T + 300000 ∧
    T + 300000 < getNextRunTime cronExpression T ∧
    getNextRunTime cronExpression T ≤ T + 360000 ∧
    (∀ (rid jid nm dat : String) (options : JobOptions)
      (userId : Option String),
      scheduleRecurringJob true true rid jid nm dat cronExpression options
          userId T =
        .ok (createRecurringJob rid nm dat cronExpression options userId,
          createJob jid nm dat (cronBase T + 300000) options userId)) := by
  have e : getNextRunTime cronExpression T = cronBase T + 300000 := by
    unfold getNextRunTime
    rw [if_neg h0, if_neg h1, if_neg h2, if_neg h3, if_neg h4]
    rfl
  refine ⟨e, ?_, ?_, ?_⟩
  · rw [e]; unfold cronBase floorMin; omega
  · rw [e]; unfold cronBase floorMin; omega
  · intro rid jid nm dat options userId
    unfold scheduleRecurringJob
    rw [e]
    rfl

/-- C8 (witness): instance of the fallback value at a concrete expression
and instant. -/
theorem nextRun_fallback_six_minutes_witness :
    getNextRunTime "7 3 2 1 5" 123456 = cronBase 123456 + 300000 :=
  (nextRun_fallback_six_minutes "7 3 2 1 5" 123456 (by decide) (by decide)
    (by decide) (by decide) (by decide)).1

/-- C9: on the daily pattern the calculator yields a midnight, strictly
after the forward-rounded instant (the from instant plus one minute with
seconds zeroed), and the least such midnight; being a pure function of its
arguments, identical inputs give identical outputs by construction. -/
theorem nextRun_daily_first_midnight (T : Nat) :
    getNextRunTime "0 0 * * *" T % 86400000 = 0 ∧
    cronBase T < getNextRunTime "0 0 * * *" T ∧
    (∀ m, m % 86400000 = 0 → cronBase T < m →
      getNextRunTime "0 0 * * *" T ≤ m) := by
  have e : getNextRunTime "0 0 * * *" T = dailyNext T := by
    unfold getNextRunTime
    rw [if_neg (by decide), if_neg (by decide), if_pos (by decide)]
  rw [e]
  unfold dailyNext cronBase floorMin
  refine ⟨by omega, by omega, ?_⟩
  intro m hm hlt
  omega

/-- C9 (witness): instance of the daily rule at a concrete instant. -/
theorem nextRun_daily_first_midnight_witness :
    getNextRunTime "0 0 * * *" 123456 % 86400000 = 0 ∧
    cronBase 123456 < getNextRunTime "0 0 * * *" 123456 ∧
    getNextRunTime "0 0 * * *" 123456 ≤ 86400000 :=
  ⟨(nextRun_daily_first_midnight 123456).1,
    (nextRun_daily_first_midnight 123456).2.1,
    (nextRun_daily_first_midnight 123456).2.2 86400000 (by decide)
      (by decide)⟩

/-- C10: passing an explicit zero for maxRetries, retryDelay or timeout in
the options of a job or recurring-job creation yields a record carrying the
default (three, sixty thousand, thirty thousand respectively), because the
JS falsy-or defaulting treats zero as absent; scheduleJob delegates its
options unchanged to the job creation. -/
theorem zero_options_fall_back_to_defaults (options : JobOptions)
    (id nm dat rid cronE : String) (scheduledAt : Nat)
    (userId : Option String) :
    (options.maxRetries = some 0 →
      (createJob id nm dat scheduledAt options userId).maxRetries = 3 ∧
      (createRecurringJob rid nm dat cronE options userId).maxRetries = 3) ∧
    (options.retryDelay = some 0 →
      (createJob id nm dat scheduledAt options userId).retryDelay = 60000 ∧
      (createRecurringJob rid nm dat cronE options userId).retryDelay =
        60000) ∧
    (options.timeout = some 0 →
      (createJob id nm dat scheduledAt options userId).timeout = 30000 ∧
      (createRecurringJob rid nm dat cronE options userId).timeout =
        30000) ∧
    scheduleJob true id nm dat scheduledAt options userId =
      .ok (createJob id nm dat scheduledAt options userId) := by
  refine ⟨fun h => ⟨?_, ?_⟩, fun h => ⟨?_, ?_⟩, fun h => ⟨?_, ?_⟩, rfl⟩ <;>
    simp [createJob, createRecurringJob, jsOrNat, h]

/-- C10 (witness): instance of the zero-option defaulting at concrete
all-zero options. -/
theorem zero_options_fall_back_to_defaults_witness :
    (createJob "i" "n" "d" 0 ⟨none, some 0, some 0, some 0⟩
      none).maxRetries = 3 ∧
    (createJob "i" "n" "d" 0 ⟨none, some 0, some 0, some 0⟩
      none).retryDelay = 60000 ∧
    (createJob "i" "n" "d" 0 ⟨none, some 0, some 0, some 0⟩
      none).timeout = 30000 := by
  have h := zero_options_fall_back_to_defaults
    ⟨none, some 0, some 0, some 0⟩ "i" "n" "d" "r" "c" 0 none
  exact ⟨(h.1 rfl).1, (h.2.1 rfl).1, (h.2.2.1 rfl).1⟩

end CustomScheduler
